import Mathlib

/-!
# kala-cli: the command surface of `main.go`

A shallow embedding of the five commands registered in `main` (`stats`,
`create-job`, `delete-job`, `list-jobs`, `describe-job`) together with the
formatting helpers they use.

Effects are made explicit.  A command handler is a value of `Proc Unit`: the
ordered trace of what the handler did (writes to `os.Stdout`, writes to
`ctx.App.Writer`, calls on the Kala client) and either a normal return or the
code handed to `os.Exit`.  The Kala client (package `kala/client`, not part of
this program) is an arbitrary answer table `KalaClient`; `kala_c.New` is an
arbitrary function from the endpoint to such a table.
-/

namespace KalaCli

/-! ## Values of the external packages -/

/-- Go `error` as seen by this program: only its `Error()` text is used (by `%v`). -/
structure GoError where
  text : String
deriving DecidableEq, Repr

/-- A `time.Time` value.  The program only hands it to `%s`. -/
structure Time where
  code : Int
deriving DecidableEq, Repr

/-- A `time.Duration` value (a count of nanoseconds).  The program only hands it to `%s`. -/
structure Duration where
  nanos : Int
deriving DecidableEq, Repr

/-- The `String()` methods of `time.Time` and `time.Duration`, which `%s` calls.
They belong to the Go standard library and are left uninterpreted. -/
structure Stringers where
  time : Time → String
  duration : Duration → String

/-- The width of Go's `int` and `uint` (a 64-bit platform). -/
def intBits : Nat := 64

/-- A value of Go's `int`: what `ctx.Int` returns. -/
structure GoInt where
  val : Int
  lo : -(2 ^ (intBits - 1) : Int) ≤ val
  hi : val < (2 ^ (intBits - 1) : Int)
deriving DecidableEq

/-- The Go conversion `uint(x)` of an `int`: the value modulo `2 ^ intBits`. -/
def GoInt.toUint (x : GoInt) : Nat :=
  (x.val % (2 ^ intBits : Int)).toNat

/-- The `Metadata` member of `kala/job.Job` (fields read by `formatJob`). -/
structure Metadata where
  SuccessCount : Nat
  LastSuccess : Time
  ErrorCount : Nat
  LastError : Time
  LastAttemptedRun : Time
deriving DecidableEq, Repr

/-- Modelled from the spec: the declaration of `kala/job.Job` is not among the
sources.  The fields are those `main.go` reads or writes, plus `Epsilon`, which
the data model of the specification lists. -/
structure Job where
  Id : String
  Name : String
  Disabled : Bool
  Schedule : String
  Owner : String
  Command : String
  Retries : Nat
  Epsilon : String
  ParentJobs : List String
  DependentJobs : List String
  Metadata : Metadata
deriving DecidableEq, Repr

/-- The Go zero value of `Job`: what a composite literal leaves in the fields it
does not mention. -/
def Job.zero : Job where
  Id := ""
  Name := ""
  Disabled := false
  Schedule := ""
  Owner := ""
  Command := ""
  Retries := 0
  Epsilon := ""
  ParentJobs := []
  DependentJobs := []
  Metadata := ⟨0, ⟨0⟩, 0, ⟨0⟩, ⟨0⟩⟩

/-- The record `kala/job.JobStat` (fields read by `formatJobStat`). -/
structure JobStat where
  RanAt : Time
  NumberOfRetries : Nat
  Success : Bool
  ExecutionDuration : Duration
deriving DecidableEq, Repr

/-- The record `kala/job.KalaStats` (fields read by `formatKalaStats`). -/
structure KalaStats where
  CreatedAt : Time
  Jobs : Int
  ActiveJobs : Int
  DisabledJobs : Int
  SuccessCount : Nat
  ErrorCount : Nat
  NextRunAt : Time
  LastAttemptedRun : Time
deriving DecidableEq, Repr

/-- The answers of a Kala client.  Each method of the Go client returns a value
and an `error`; the handlers look at the value only when the error is `nil`,
and the pointers in it are then not `nil`.  `GetAllJobs` returns a Go map from
job id to job, `map[string]*job.Job`: it is given by its entries, whose keys are
distinct and whose listing order has no meaning. -/
structure KalaClient where
  GetKalaStats : Except GoError KalaStats
  CreateJob : Job → Except GoError String
  DeleteJob : String → Except GoError Bool
  GetAllJobs : Except GoError (List (String × Job))
  GetJob : String → Except GoError Job
  GetJobStats : String → Except GoError (List JobStat)

/-! ## Effects -/

/-- A call on the Kala client, with its argument. -/
inductive Call where
  | GetKalaStats
  | CreateJob (j : Job)
  | DeleteJob (id : String)
  | GetAllJobs
  | GetJob (id : String)
  | GetJobStats (id : String)
deriving DecidableEq, Repr

/-- One observable step of a handler. -/
inductive Event where
  | stdout (s : String)
  | appWriter (s : String)
  | remote (c : Call)
deriving DecidableEq, Repr

/-- A handler run: the events in order, and either the returned value or the
code passed to `os.Exit`. -/
structure Proc (α : Type) where
  trace : List Event
  res : Except Nat α

/-- Returning a value does nothing observable. -/
def Proc.pure {α : Type} (a : α) : Proc α := ⟨[], .ok a⟩

/-- Sequencing: after `os.Exit` nothing more happens. -/
def Proc.bind {α β : Type} (m : Proc α) (f : α → Proc β) : Proc β :=
  match m.res with
  | .error code => ⟨m.trace, .error code⟩
  | .ok a => ⟨m.trace ++ (f a).trace, (f a).res⟩

instance : Monad Proc where
  pure := Proc.pure
  bind := Proc.bind

/-- The call `os.Exit(code)`. -/
def osExit {α : Type} (code : Nat) : Proc α := ⟨[], .error code⟩

/-- A write of `s` to `os.Stdout` (`fmt.Printf`, `fmt.Println`). -/
def printStdout (s : String) : Proc Unit := ⟨[.stdout s], .ok ()⟩

/-- A write of `s` to `ctx.App.Writer` (`fmt.Fprintf(ctx.App.Writer, ...)`). -/
def fprintAppWriter (s : String) : Proc Unit := ⟨[.appWriter s], .ok ()⟩

/-- A call on the client: it is recorded and its answer handed back. -/
def remote {α : Type} (c : Call) (answer : Except GoError α) : Proc (Except GoError α) :=
  ⟨[.remote c], .ok answer⟩

/-- The loop `for i, x := range xs { body(i, x) }`, counting from `i`. -/
def forRangeFrom {α : Type} (body : Nat → α → Proc Unit) : Nat → List α → Proc Unit
  | _, [] => Proc.pure ()
  | i, x :: rest => Proc.bind (body i x) (fun _ => forRangeFrom body (i + 1) rest)

/-- The loop `for i, x := range xs { body(i, x) }`. -/
def forRange {α : Type} (xs : List α) (body : Nat → α → Proc Unit) : Proc Unit :=
  forRangeFrom body 0 xs

/-- The order in which a `range` loop visits the entries of a Go map.  The
language leaves it unspecified and the runtime picks it: all that is known is
that every entry is visited once. -/
structure MapRange where
  order : List (String × Job) → List (String × Job)
  perm : ∀ m : List (String × Job), (order m).Perm m

/-- The loop `for k, v := range m { body(k, v) }` over a map `m`. -/
def forRangeMap (R : MapRange) (m : List (String × Job))
    (body : String → Job → Proc Unit) : Proc Unit :=
  forRangeFrom (fun _ e => body e.1 e.2) 0 (R.order m)

/-- The process exit status of a handler run: the code given to `os.Exit`, or 0
when the handler returns. -/
def Proc.exitCode {α : Type} (p : Proc α) : Nat :=
  match p.res with
  | .error code => code
  | .ok _ => 0

/-! ## Observations on a trace -/

/-- The client calls of a trace, in order. -/
def calls : List Event → List Call
  | [] => []
  | .remote c :: rest => c :: calls rest
  | _ :: rest => calls rest

/-- The writes to `os.Stdout` of a trace, in order. -/
def stdoutWrites : List Event → List String
  | [] => []
  | .stdout s :: rest => s :: stdoutWrites rest
  | _ :: rest => stdoutWrites rest

/-- The writes to `ctx.App.Writer` of a trace, in order. -/
def appWrites : List Event → List String
  | [] => []
  | .appWriter s :: rest => s :: appWrites rest
  | _ :: rest => appWrites rest

/-! ## The command-line context -/

/-- What a handler reads from its `*cli.Context`. -/
structure Context where
  /-- The value of `ctx.App.HelpName`. -/
  helpName : String
  /-- The value of `ctx.GlobalString("endpoint")`. -/
  endpoint : String
  /-- The value of `ctx.Args()`. -/
  args : List String
  /-- The value of `ctx.String("owner")`. -/
  owner : String
  /-- The value of `ctx.Int("retries")`. -/
  retries : GoInt
  /-- The value of `ctx.String("epsilon")`. -/
  epsilon : String
  /-- The value of `ctx.Bool("stats")`. -/
  stats : Bool

/-- The method `Args.Get(n)` of the cli package: the `n`-th argument, or the
empty string when there is none. -/
def Args.Get (a : List String) (n : Nat) : String :=
  if a.length > n then a.getD n "" else ""

/-- The verb `%d` on a `uint` or a non-negative `int`. -/
def fmtNat (n : Nat) : String := toString n

/-- The verb `%d` on an `int`. -/
def fmtInt (n : Int) : String := toString n

/-- The library function `strings.Join`. -/
def stringsJoin (xs : List String) (sep : String) : String := sep.intercalate xs

/-! ## The functions of `main.go` -/

def formatBool (v : Bool) (falseStr trueStr : String) : String :=
  if v then trueStr else falseStr

def putSeparator : Proc Unit :=
  printStdout "---\n"

def formatJob (S : Stringers) (j : Job) : Proc Unit := do
  printStdout ("Job id: " ++ j.Id ++ "\n")
  printStdout ("Name: " ++ j.Name ++ "\n")
  printStdout ("Disabled: " ++ formatBool j.Disabled "no" "yes" ++ "\n")
  printStdout ("Schedule: " ++ j.Schedule ++ "\n")
  printStdout ("Owner: " ++ j.Owner ++ "\n")
  printStdout ("Command: " ++ j.Command ++ "\n")
  printStdout ("Retries: " ++ fmtNat j.Retries ++ "\n")
  printStdout ("Parent jobs: " ++ stringsJoin j.ParentJobs ", " ++ "\n")
  printStdout ("Dependent jobs: " ++ stringsJoin j.DependentJobs ", " ++ "\n")
  printStdout ("Success count: " ++ fmtNat j.Metadata.SuccessCount ++ "\n")
  printStdout ("Error count: " ++ fmtNat j.Metadata.ErrorCount ++ "\n")
  printStdout ("Last success: " ++ S.time j.Metadata.LastSuccess ++ "\n")
  printStdout ("Last error: " ++ S.time j.Metadata.LastError ++ "\n")
  printStdout ("Last attempted run: " ++ S.time j.Metadata.LastAttemptedRun ++ "\n")

def formatJobStat (S : Stringers) (n : Nat) (js : JobStat) : Proc Unit := do
  printStdout ("Repetition: " ++ fmtNat n ++ "\n")
  printStdout ("Last run at: " ++ S.time js.RanAt ++ "\n")
  printStdout ("Number of retries: " ++ fmtNat js.NumberOfRetries ++ "\n")
  printStdout ("Status: " ++ formatBool js.Success "failed" "success" ++ "\n")
  printStdout ("Execution duration: " ++ S.duration js.ExecutionDuration ++ "\n")

def formatKalaStats (S : Stringers) (ks : KalaStats) : Proc Unit := do
  printStdout ("Stats retrieved at: " ++ S.time ks.CreatedAt ++ "\n")
  printStdout ("Total jobs: " ++ fmtInt ks.Jobs ++ "\n")
  printStdout ("Active jobs: " ++ fmtInt ks.ActiveJobs ++ "\n")
  printStdout ("Disabled jobs: " ++ fmtInt ks.DisabledJobs ++ "\n")
  printStdout ("Success count: " ++ fmtNat ks.SuccessCount ++ "\n")
  printStdout ("Error count: " ++ fmtNat ks.ErrorCount ++ "\n")
  printStdout ("Next run: " ++ S.time ks.NextRunAt ++ "\n")
  printStdout ("Last attempted run: " ++ S.time ks.LastAttemptedRun ++ "\n")

/-- The line every handler writes for a failed client call:
`fmt.Fprintf(ctx.App.Writer, "%s: %v\n", ctx.App.HelpName, err)`. -/
def reportError (ctx : Context) (err : GoError) : Proc Unit :=
  fprintAppWriter (ctx.helpName ++ ": " ++ err.text ++ "\n")

/-- The `Action` of the command `stats`. -/
def statsAction (S : Stringers) (New : String → KalaClient) (ctx : Context) : Proc Unit := do
  let c := New ctx.endpoint
  let r ← remote .GetKalaStats c.GetKalaStats
  let ks ← match r with
    | .error err => do
      reportError ctx err
      osExit 1
    | .ok ks => pure ks
  formatKalaStats S ks

/-- The `Action` of the command `create-job`. -/
def createJobAction (New : String → KalaClient) (ctx : Context) : Proc Unit := do
  let args := ctx.args
  if args.length < 3 then
    fprintAppWriter (ctx.helpName ++ ": The first argument is a job name, the second is a schedule spec and the third is a command line to run.\n")
    osExit 255
  let retries := ctx.retries
  if retries.val < 0 then
    fprintAppWriter (ctx.helpName ++ ": You cannot specify a negative value for --retries.\n")
    osExit 255
  let c := New ctx.endpoint
  let job : Job :=
    { Job.zero with
      Owner := ctx.owner
      Retries := retries.toUint
      Name := Args.Get args 0
      Schedule := Args.Get args 1
      Command := Args.Get args 2 }
  let r ← remote (.CreateJob job) (c.CreateJob job)
  let id ← match r with
    | .error err => do
      reportError ctx err
      osExit 1
    | .ok id => pure id
  printStdout (id ++ "\n")

/-- The `Action` of the command `delete-job`. -/
def deleteJobAction (New : String → KalaClient) (ctx : Context) : Proc Unit := do
  let args := ctx.args
  if args.length < 1 then
    fprintAppWriter (ctx.helpName ++ ": The first argument is a job id.\n")
    osExit 255
  let c := New ctx.endpoint
  let r ← remote (.DeleteJob (Args.Get args 0)) (c.DeleteJob (Args.Get args 0))
  let ok ← match r with
    | .error err => do
      reportError ctx err
      osExit 1
    | .ok ok => pure ok
  printStdout (formatBool ok "failed" "success" ++ "\n")
  if !ok then
    osExit 2

/-- The `Action` of the command `list-jobs`. -/
def listJobsAction (R : MapRange) (New : String → KalaClient) (ctx : Context) : Proc Unit := do
  let c := New ctx.endpoint
  let r ← remote .GetAllJobs c.GetAllJobs
  let jobs ← match r with
    | .error err => do
      reportError ctx err
      osExit 1
    | .ok jobs => pure jobs
  forRangeMap R jobs (fun _ j => printStdout (j.Id ++ "\n"))

/-- The `Action` of the command `describe-job`.  A Go slice that is `nil` and
one that is empty are both the empty list: the guard `sts != nil` only skips a
loop that would not run. -/
def describeJobAction (S : Stringers) (New : String → KalaClient) (ctx : Context) :
    Proc Unit := do
  let args := ctx.args
  if args.length < 1 then
    fprintAppWriter (ctx.helpName ++ ": The first argument is a job id.\n")
    osExit 255
  let c := New ctx.endpoint
  let r ← remote (.GetJob (Args.Get args 0)) (c.GetJob (Args.Get args 0))
  let j ← match r with
    | .error err => do
      reportError ctx err
      osExit 1
    | .ok j => pure j
  let mut sts : List JobStat := []
  if ctx.stats then
    let rs ← remote (.GetJobStats (Args.Get args 0)) (c.GetJobStats (Args.Get args 0))
    sts ← match rs with
      | .error err => do
        reportError ctx err
        osExit 1
      | .ok v => pure v
  formatJob S j
  if sts ≠ [] then
    forRange sts (fun i st => do
      putSeparator
      formatJobStat S i st)

/-- The commands registered in `app.Commands`. -/
inductive Command where
  | stats
  | createJob
  | deleteJob
  | listJobs
  | describeJob
deriving DecidableEq, Repr

/-- The `Action` that `app.Run` invokes for a command. -/
def action (S : Stringers) (R : MapRange) (New : String → KalaClient) :
    Command → Context → Proc Unit
  | .stats => statsAction S New
  | .createJob => createJobAction New
  | .deleteJob => deleteJobAction New
  | .listJobs => listJobsAction R New
  | .describeJob => describeJobAction S New

/-! ## What the handlers write -/

/-- The fourteen lines of a job description. -/
def jobLines (S : Stringers) (j : Job) : List String :=
  [ "Job id: " ++ j.Id ++ "\n",
    "Name: " ++ j.Name ++ "\n",
    "Disabled: " ++ (if j.Disabled then "yes" else "no") ++ "\n",
    "Schedule: " ++ j.Schedule ++ "\n",
    "Owner: " ++ j.Owner ++ "\n",
    "Command: " ++ j.Command ++ "\n",
    "Retries: " ++ toString j.Retries ++ "\n",
    "Parent jobs: " ++ ", ".intercalate j.ParentJobs ++ "\n",
    "Dependent jobs: " ++ ", ".intercalate j.DependentJobs ++ "\n",
    "Success count: " ++ toString j.Metadata.SuccessCount ++ "\n",
    "Error count: " ++ toString j.Metadata.ErrorCount ++ "\n",
    "Last success: " ++ S.time j.Metadata.LastSuccess ++ "\n",
    "Last error: " ++ S.time j.Metadata.LastError ++ "\n",
    "Last attempted run: " ++ S.time j.Metadata.LastAttemptedRun ++ "\n" ]

/-- The lines of one statistics block, the separator first. -/
def statBlock (S : Stringers) (i : Nat) (st : JobStat) : List String :=
  [ "---\n",
    "Repetition: " ++ toString i ++ "\n",
    "Last run at: " ++ S.time st.RanAt ++ "\n",
    "Number of retries: " ++ toString st.NumberOfRetries ++ "\n",
    "Status: " ++ (if st.Success then "success" else "failed") ++ "\n",
    "Execution duration: " ++ S.duration st.ExecutionDuration ++ "\n" ]

/-- The blocks of a statistics sequence, numbered from `k`. -/
def statBlocksFrom (S : Stringers) : Nat → List JobStat → List (List String)
  | _, [] => []
  | k, st :: rest => statBlock S k st :: statBlocksFrom S (k + 1) rest

/-- The usage line of `create-job`. -/
def createJobUsage (ctx : Context) : String :=
  ctx.helpName ++ ": The first argument is a job name, the second is a schedule spec and the third is a command line to run.\n"

/-- The usage line of `delete-job` and `describe-job`. -/
def jobIdUsage (ctx : Context) : String :=
  ctx.helpName ++ ": The first argument is a job id.\n"

/-- The `Job` literal built by `create-job`. -/
def createJobLiteral (ctx : Context) : Job :=
  { Job.zero with
    Owner := ctx.owner
    Retries := ctx.retries.toUint
    Name := Args.Get ctx.args 0
    Schedule := Args.Get ctx.args 1
    Command := Args.Get ctx.args 2 }

/-! ## Sample inputs -/

/-- A rendering of times and durations used in the examples. -/
def sampleStringers : Stringers :=
  ⟨fun t => toString t.code, fun d => toString d.nanos ++ "ns"⟩

/-- A client whose service accepts everything except deletions, knows no job
called `missing-id`, and has two runs on record for every other job. -/
def sampleClient : KalaClient where
  GetKalaStats := .error ⟨"connection refused"⟩
  CreateJob := fun _ => .ok "abc123"
  DeleteJob := fun id => .ok (id == "job-1")
  GetAllJobs :=
    .ok [("job-1", { Job.zero with Id := "job-1" }), ("job-2", { Job.zero with Id := "job-2" })]
  GetJob := fun id =>
    if id == "missing-id" then .error ⟨"NotFound"⟩ else .ok { Job.zero with Id := id }
  GetJobStats := fun id =>
    if id == "job-2" then .error ⟨"NotFound"⟩
    else .ok [⟨⟨1⟩, 2, true, ⟨5⟩⟩, ⟨⟨2⟩, 0, false, ⟨7⟩⟩]

/-- A run in which `range` visits the entries of a map as they are listed. -/
def rangeAsListed : MapRange := ⟨fun m => m, fun m => List.Perm.refl m⟩

/-- A run in which `range` visits the entries of a map last to first. -/
def rangeReversed : MapRange := ⟨List.reverse, List.reverse_perm⟩

/-- An invocation without positional arguments and with every option at its default. -/
def sampleCtx : Context where
  helpName := "kala-cli"
  endpoint := "http://localhost:8000"
  args := []
  owner := "operator"
  retries := ⟨0, by decide, by decide⟩
  epsilon := ""
  stats := false

/-! ## Unfolding the handlers -/

theorem bind_def {α β : Type} (m : Proc α) (f : α → Proc β) : (m >>= f) = Proc.bind m f := rfl

theorem pure_def {α : Type} (a : α) : (pure a : Proc α) = Proc.pure a := rfl

theorem calls_append (xs ys : List Event) : calls (xs ++ ys) = calls xs ++ calls ys := by
  induction xs with
  | nil => rfl
  | cons e rest ih => cases e <;> simp [calls, ih]

theorem stdoutWrites_append (xs ys : List Event) :
    stdoutWrites (xs ++ ys) = stdoutWrites xs ++ stdoutWrites ys := by
  induction xs with
  | nil => rfl
  | cons e rest ih => cases e <;> simp [stdoutWrites, ih]

theorem appWrites_append (xs ys : List Event) :
    appWrites (xs ++ ys) = appWrites xs ++ appWrites ys := by
  induction xs with
  | nil => rfl
  | cons e rest ih => cases e <;> simp [appWrites, ih]

theorem Args_Get_zero (id : String) (rest : List String) : Args.Get (id :: rest) 0 = id := by
  simp [Args.Get]

theorem formatJob_eq (S : Stringers) (j : Job) :
    formatJob S j = ⟨(jobLines S j).map Event.stdout, .ok ()⟩ := by
  simp [formatJob, jobLines, bind_def, Proc.bind, printStdout, formatBool, fmtNat, stringsJoin]

theorem statBody_eq (S : Stringers) (i : Nat) (st : JobStat) :
    (do putSeparator; formatJobStat S i st : Proc Unit)
      = ⟨(statBlock S i st).map Event.stdout, .ok ()⟩ := by
  simp [formatJobStat, statBlock, putSeparator, bind_def, Proc.bind, printStdout, formatBool, fmtNat]

theorem statBlocksFrom_length (S : Stringers) (k : Nat) (sts : List JobStat) :
    (statBlocksFrom S k sts).length = sts.length := by
  induction sts generalizing k with
  | nil => rfl
  | cons st rest ih => simp [statBlocksFrom, ih]

theorem statBlocksFrom_getElem? (S : Stringers) (k i : Nat) (sts : List JobStat) (st : JobStat)
    (h : sts[i]? = some st) : (statBlocksFrom S k sts)[i]? = some (statBlock S (k + i) st) := by
  induction sts generalizing k i with
  | nil => simp at h
  | cons x rest ih =>
    cases i with
    | zero =>
      simp at h
      simp [statBlocksFrom, h]
    | succ n =>
      simp at h
      have hn := ih (k + 1) n h
      have e : k + 1 + n = k + (n + 1) := by omega
      rw [e] at hn
      simpa [statBlocksFrom] using hn

theorem statsLoop_eq (S : Stringers) (k : Nat) (sts : List JobStat) :
    forRangeFrom (fun i st => (do putSeparator; formatJobStat S i st : Proc Unit)) k sts
      = ⟨((statBlocksFrom S k sts).flatten).map Event.stdout, .ok ()⟩ := by
  induction sts generalizing k with
  | nil => rfl
  | cons st rest ih =>
    rw [forRangeFrom, ih (k + 1), statBody_eq]
    simp [Proc.bind, statBlocksFrom]

theorem listLoop_eq (k : Nat) (jobs : List (String × Job)) :
    forRangeFrom (fun _ (e : String × Job) => printStdout (e.2.Id ++ "\n")) k jobs
      = ⟨(jobs.map (fun e => e.2.Id ++ "\n")).map Event.stdout, .ok ()⟩ := by
  induction jobs generalizing k with
  | nil => rfl
  | cons j rest ih =>
    rw [forRangeFrom, ih (k + 1)]
    simp [Proc.bind, printStdout]

theorem stdoutWrites_map_stdout (xs : List String) :
    stdoutWrites (xs.map Event.stdout) = xs := by
  induction xs with
  | nil => rfl
  | cons x rest ih => simp [stdoutWrites, ih]

theorem calls_map_stdout (xs : List String) : calls (xs.map Event.stdout) = [] := by
  induction xs with
  | nil => rfl
  | cons x rest ih => simp [calls, ih]

theorem appWrites_map_stdout (xs : List String) : appWrites (xs.map Event.stdout) = [] := by
  induction xs with
  | nil => rfl
  | cons x rest ih => simp [appWrites, ih]

theorem createJobAction_short (New : String → KalaClient) (ctx : Context)
    (h : ctx.args.length < 3) :
    createJobAction New ctx = ⟨[.appWriter (createJobUsage ctx)], .error 255⟩ := by
  simp [createJobAction, createJobUsage, bind_def, pure_def, Proc.bind, Proc.pure, osExit,
    fprintAppWriter, h]

theorem createJobAction_negative (New : String → KalaClient) (ctx : Context)
    (h : 3 ≤ ctx.args.length) (hr : ctx.retries.val < 0) :
    createJobAction New ctx =
      ⟨[.appWriter (ctx.helpName ++ ": You cannot specify a negative value for --retries.\n")],
        .error 255⟩ := by
  have h3 : ¬ ctx.args.length < 3 := by omega
  simp [createJobAction, bind_def, pure_def, Proc.bind, Proc.pure, osExit, fprintAppWriter, h3, hr]

theorem createJobAction_sent (New : String → KalaClient) (ctx : Context)
    (h : 3 ≤ ctx.args.length) (hr : 0 ≤ ctx.retries.val) :
    createJobAction New ctx =
      match (New ctx.endpoint).CreateJob (createJobLiteral ctx) with
      | .error err =>
        ⟨[.remote (.CreateJob (createJobLiteral ctx)),
          .appWriter (ctx.helpName ++ ": " ++ err.text ++ "\n")], .error 1⟩
      | .ok id => ⟨[.remote (.CreateJob (createJobLiteral ctx)), .stdout (id ++ "\n")], .ok ()⟩ := by
  have h3 : ¬ ctx.args.length < 3 := by omega
  have hr2 : ¬ ctx.retries.val < 0 := by omega
  simp only [createJobAction, createJobLiteral, bind_def, pure_def, Proc.bind, Proc.pure, osExit,
    fprintAppWriter, h3, hr2, remote, reportError, printStdout]
  cases hc : (New ctx.endpoint).CreateJob _ <;> simp

theorem deleteJobAction_short (New : String → KalaClient) (ctx : Context)
    (h : ctx.args.length < 1) :
    deleteJobAction New ctx = ⟨[.appWriter (jobIdUsage ctx)], .error 255⟩ := by
  simp [deleteJobAction, jobIdUsage, bind_def, pure_def, Proc.bind, Proc.pure, osExit,
    fprintAppWriter, h]

theorem deleteJobAction_sent (New : String → KalaClient) (ctx : Context)
    (h : 1 ≤ ctx.args.length) :
    deleteJobAction New ctx =
      match (New ctx.endpoint).DeleteJob (Args.Get ctx.args 0) with
      | .error err =>
        ⟨[.remote (.DeleteJob (Args.Get ctx.args 0)),
          .appWriter (ctx.helpName ++ ": " ++ err.text ++ "\n")], .error 1⟩
      | .ok true => ⟨[.remote (.DeleteJob (Args.Get ctx.args 0)), .stdout "success\n"], .ok ()⟩
      | .ok false => ⟨[.remote (.DeleteJob (Args.Get ctx.args 0)), .stdout "failed\n"], .error 2⟩ := by
  have h1 : ¬ ctx.args.length < 1 := by omega
  simp only [deleteJobAction, bind_def, pure_def, Proc.bind, Proc.pure, osExit,
    fprintAppWriter, h1, remote, reportError, printStdout, formatBool]
  cases hc : (New ctx.endpoint).DeleteJob _ with
  | error err => simp
  | ok b => cases b <;> simp

theorem listJobsAction_eq (R : MapRange) (New : String → KalaClient) (ctx : Context) :
    listJobsAction R New ctx =
      match (New ctx.endpoint).GetAllJobs with
      | .error err =>
        ⟨[.remote .GetAllJobs, .appWriter (ctx.helpName ++ ": " ++ err.text ++ "\n")], .error 1⟩
      | .ok jobs =>
        ⟨.remote .GetAllJobs ::
          ((R.order jobs).map (fun e => e.2.Id ++ "\n")).map Event.stdout, .ok ()⟩ := by
  simp only [listJobsAction, bind_def, pure_def, Proc.bind, Proc.pure, osExit,
    fprintAppWriter, remote, reportError, forRangeMap]
  cases hc : (New ctx.endpoint).GetAllJobs with
  | error err => simp
  | ok jobs => simp [listLoop_eq]

theorem describeJobAction_short (S : Stringers) (New : String → KalaClient) (ctx : Context)
    (h : ctx.args.length < 1) :
    describeJobAction S New ctx = ⟨[.appWriter (jobIdUsage ctx)], .error 255⟩ := by
  simp [describeJobAction, jobIdUsage, bind_def, pure_def, Proc.bind, Proc.pure, osExit,
    fprintAppWriter, h]

theorem describeJobAction_sent (S : Stringers) (New : String → KalaClient) (ctx : Context)
    (h : 1 ≤ ctx.args.length) :
    describeJobAction S New ctx =
      match (New ctx.endpoint).GetJob (Args.Get ctx.args 0) with
      | .error err =>
        ⟨[.remote (.GetJob (Args.Get ctx.args 0)),
          .appWriter (ctx.helpName ++ ": " ++ err.text ++ "\n")], .error 1⟩
      | .ok j =>
        if ctx.stats then
          match (New ctx.endpoint).GetJobStats (Args.Get ctx.args 0) with
          | .error err =>
            ⟨[.remote (.GetJob (Args.Get ctx.args 0)), .remote (.GetJobStats (Args.Get ctx.args 0)),
              .appWriter (ctx.helpName ++ ": " ++ err.text ++ "\n")], .error 1⟩
          | .ok sts =>
            ⟨[.remote (.GetJob (Args.Get ctx.args 0)), .remote (.GetJobStats (Args.Get ctx.args 0))]
              ++ (jobLines S j ++ (statBlocksFrom S 0 sts).flatten).map Event.stdout, .ok ()⟩
        else
          ⟨.remote (.GetJob (Args.Get ctx.args 0)) :: (jobLines S j).map Event.stdout, .ok ()⟩ := by
  have h1 : ¬ ctx.args.length < 1 := by omega
  simp only [describeJobAction, forRange, statsLoop_eq, formatJob_eq]
  simp only [bind_def, pure_def, Proc.bind, Proc.pure, osExit, fprintAppWriter, h1, remote,
    reportError]
  cases hc : (New ctx.endpoint).GetJob _ with
  | error err => simp
  | ok j =>
    cases hst : ctx.stats with
    | false => simp
    | true =>
      cases hs : (New ctx.endpoint).GetJobStats _ with
      | error err => simp
      | ok sts =>
        cases sts with
        | nil => simp [statBlocksFrom]
        | cons st rest => simp

theorem toUint_of_nonneg (x : GoInt) (h : 0 ≤ x.val) : (x.toUint : Int) = x.val := by
  have hi := x.hi
  have hlt : x.val < (2 ^ intBits : Int) := by
    have : (2 ^ (intBits - 1) : Int) ≤ 2 ^ intBits := by decide
    omega
  unfold GoInt.toUint
  rw [Int.emod_eq_of_lt h hlt, Int.toNat_of_nonneg h]

theorem take_three_eq (args : List String) (h : 3 ≤ args.length) :
    args.take 3 = [Args.Get args 0, Args.Get args 1, Args.Get args 2] := by
  match args, h with
  | a :: b :: c :: rest, _ => simp [Args.Get]

theorem createJobAction_extra_ignored (New : String → KalaClient) (ctx : Context)
    (a b c : String) (extra : List String) (hargs : ctx.args = a :: b :: c :: extra) :
    createJobAction New ctx = createJobAction New { ctx with args := [a, b, c] } := by
  have h3 : 3 ≤ ctx.args.length := by simp [hargs]
  have hlit : createJobLiteral ctx = createJobLiteral { ctx with args := [a, b, c] } := by
    simp [createJobLiteral, hargs, Args.Get]
  by_cases hr : ctx.retries.val < 0
  · rw [createJobAction_negative New ctx h3 hr,
      createJobAction_negative New { ctx with args := [a, b, c] } (by simp) hr]
  · have hr0 : 0 ≤ ctx.retries.val := by omega
    rw [createJobAction_sent New ctx h3 hr0,
      createJobAction_sent New { ctx with args := [a, b, c] } (by simp) hr0, hlit]

theorem deleteJobAction_extra_ignored (New : String → KalaClient) (ctx : Context)
    (id : String) (extra : List String) (hargs : ctx.args = id :: extra) :
    deleteJobAction New ctx = deleteJobAction New { ctx with args := [id] } := by
  have h1 : 1 ≤ ctx.args.length := by simp [hargs]
  have hid : Args.Get ctx.args 0 = id := by rw [hargs, Args_Get_zero]
  rw [deleteJobAction_sent New ctx h1, deleteJobAction_sent New { ctx with args := [id] } (by simp),
    hid]
  simp [Args.Get]

theorem describeJobAction_extra_ignored (S : Stringers) (New : String → KalaClient)
    (ctx : Context) (id : String) (extra : List String) (hargs : ctx.args = id :: extra) :
    describeJobAction S New ctx = describeJobAction S New { ctx with args := [id] } := by
  have h1 : 1 ≤ ctx.args.length := by simp [hargs]
  have hid : Args.Get ctx.args 0 = id := by rw [hargs, Args_Get_zero]
  rw [describeJobAction_sent S New ctx h1,
    describeJobAction_sent S New { ctx with args := [id] } (by simp), hid]
  simp [Args.Get]

theorem calls_deleteJobAction (New : String → KalaClient) (ctx : Context)
    (h : 1 ≤ ctx.args.length) :
    (deleteJobAction New ctx).exitCode ≠ 255 ∧
      ∃ rest, calls (deleteJobAction New ctx).trace = .DeleteJob (Args.Get ctx.args 0) :: rest := by
  rw [deleteJobAction_sent New ctx h]
  cases (New ctx.endpoint).DeleteJob (Args.Get ctx.args 0) with
  | error err => exact ⟨by simp [Proc.exitCode], [], rfl⟩
  | ok b => cases b <;> exact ⟨by simp [Proc.exitCode], [], rfl⟩

theorem calls_describeJobAction (S : Stringers) (New : String → KalaClient) (ctx : Context)
    (h : 1 ≤ ctx.args.length) :
    (describeJobAction S New ctx).exitCode ≠ 255 ∧
      ∃ rest, calls (describeJobAction S New ctx).trace = .GetJob (Args.Get ctx.args 0) :: rest := by
  rw [describeJobAction_sent S New ctx h]
  cases (New ctx.endpoint).GetJob (Args.Get ctx.args 0) with
  | error err => exact ⟨by simp [Proc.exitCode], [], rfl⟩
  | ok j =>
    cases ctx.stats with
    | false => exact ⟨by simp [Proc.exitCode], _, rfl⟩
    | true =>
      cases (New ctx.endpoint).GetJobStats (Args.Get ctx.args 0) with
      | error err => exact ⟨by simp [Proc.exitCode], _, rfl⟩
      | ok sts => exact ⟨by simp [Proc.exitCode], _, rfl⟩

theorem calls_createJobAction (New : String → KalaClient) (ctx : Context)
    (h : 3 ≤ ctx.args.length) (hr : 0 ≤ ctx.retries.val) :
    (createJobAction New ctx).exitCode ≠ 255 ∧
      calls (createJobAction New ctx).trace = [.CreateJob (createJobLiteral ctx)] := by
  rw [createJobAction_sent New ctx h hr]
  cases (New ctx.endpoint).CreateJob (createJobLiteral ctx) <;>
    exact ⟨by simp [Proc.exitCode], rfl⟩

theorem separator_not_mem_jobLines (S : Stringers) (j : Job) : "---\n" ∉ jobLines S j := by
  simp [jobLines, String.ext_iff]

theorem calls_describeJobAction_cons (S : Stringers) (New : String → KalaClient)
    (ctx : Context) (id : String) (rest : List String) (hargs : ctx.args = id :: rest) :
    calls (describeJobAction S New ctx).trace =
      match (New ctx.endpoint).GetJob id with
      | .error _ => [.GetJob id]
      | .ok _ => if ctx.stats then [.GetJob id, .GetJobStats id] else [.GetJob id] := by
  have h1 : 1 ≤ ctx.args.length := by simp [hargs]
  have hid : Args.Get ctx.args 0 = id := by rw [hargs, Args_Get_zero]
  rw [describeJobAction_sent S New ctx h1, hid]
  cases (New ctx.endpoint).GetJob id with
  | error err => rfl
  | ok j =>
    cases ctx.stats with
    | false =>
      show calls (Event.remote (Call.GetJob id) :: (jobLines S j).map Event.stdout) = _
      simp only [calls, calls_map_stdout]
      rfl
    | true =>
      cases (New ctx.endpoint).GetJobStats id with
      | error err => rfl
      | ok sts =>
        show calls ([Event.remote (Call.GetJob id), Event.remote (Call.GetJobStats id)] ++ _) = _
        rw [calls_append, calls_map_stdout]
        rfl

theorem describeJobAction_nostats (S : Stringers) (New : String → KalaClient)
    (ctx : Context) (id : String) (rest : List String) (j : Job)
    (hargs : ctx.args = id :: rest) (hstats : ctx.stats = false)
    (hj : (New ctx.endpoint).GetJob id = .ok j) :
    stdoutWrites (describeJobAction S New ctx).trace = jobLines S j := by
  have h1 : 1 ≤ ctx.args.length := by simp [hargs]
  have hid : Args.Get ctx.args 0 = id := by rw [hargs, Args_Get_zero]
  have hrun := describeJobAction_sent S New ctx h1
  rw [hid, hj] at hrun
  simp only [hstats, Bool.false_eq_true, if_false] at hrun
  rw [hrun]
  exact stdoutWrites_map_stdout (jobLines S j)

theorem foldl_append_data (l : List String) (acc : String) :
    (l.foldl (fun r s => r ++ s) acc).data = acc.data ++ (l.map String.data).flatten := by
  induction l generalizing acc with
  | nil => simp
  | cons x rest ih => simp [ih]

theorem join_data (l : List String) : (String.join l).data = (l.map String.data).flatten := by
  unfold String.join
  rw [foldl_append_data]
  simp

theorem newline_count_lines (jobs : List (String × Job))
    (h : ∀ e ∈ jobs, '\n' ∉ e.2.Id.data) :
    (String.join (jobs.map (fun e => e.2.Id ++ "\n"))).data.count '\n' = jobs.length := by
  rw [join_data]
  induction jobs with
  | nil => rfl
  | cons j rest ih =>
    have hs : j.2.Id.data.count '\n' = 0 := List.count_eq_zero.mpr (h j (by simp))
    have hrest := ih (fun t ht => h t (by simp [ht]))
    simp only [List.map_cons, List.flatten_cons, List.count_append, String.data_append,
      List.length_cons, hs, hrest]
    simp
    omega

/-! ## The claims -/

/-- C1: every usage error is detected locally.  An invocation of `create-job`
with fewer than three positional arguments, of `delete-job` or `describe-job`
with no positional argument, or of `create-job` with at least three positional
arguments and a negative `--retries`, exits with code 255 and makes no call on
the client, whatever the client would have answered. -/
theorem usage_error_exits_255_without_call (S : Stringers) (R : MapRange)
    (New : String → KalaClient) (cmd : Command) (ctx : Context)
    (h : (cmd = .createJob ∧ ctx.args.length < 3) ∨
      ((cmd = .deleteJob ∨ cmd = .describeJob) ∧ ctx.args.length = 0) ∨
      (cmd = .createJob ∧ 3 ≤ ctx.args.length ∧ ctx.retries.val < 0)) :
    (action S R New cmd ctx).exitCode = 255 ∧ calls (action S R New cmd ctx).trace = [] := by
  rcases h with ⟨hc, hlen⟩ | ⟨hc | hc, hlen⟩ | ⟨hc, hlen, hneg⟩
  · subst hc
    simp [action, createJobAction_short New ctx hlen, Proc.exitCode, calls]
  · subst hc
    have hlt : ctx.args.length < 1 := by omega
    simp [action, deleteJobAction_short New ctx hlt, Proc.exitCode, calls]
  · subst hc
    have hlt : ctx.args.length < 1 := by omega
    simp [action, describeJobAction_short S New ctx hlt, Proc.exitCode, calls]
  · subst hc
    simp [action, createJobAction_negative New ctx hlen hneg, Proc.exitCode, calls]

/-- C1 at concrete inputs: `create-job` with two arguments, `describe-job` with
none, and `create-job` with three arguments and `--retries=-3`. -/
theorem usage_error_exits_255_without_call_witness :
    ((action sampleStringers rangeAsListed (fun _ => sampleClient) .createJob
          { sampleCtx with args := ["backup", "@every 1h"] }).exitCode = 255 ∧
      calls (action sampleStringers rangeAsListed (fun _ => sampleClient) .createJob
          { sampleCtx with args := ["backup", "@every 1h"] }).trace = []) ∧
    ((action sampleStringers rangeAsListed (fun _ => sampleClient) .describeJob sampleCtx).exitCode = 255 ∧
      calls (action sampleStringers rangeAsListed (fun _ => sampleClient) .describeJob sampleCtx).trace = []) ∧
    ((action sampleStringers rangeAsListed (fun _ => sampleClient) .createJob
          { sampleCtx with
            args := ["backup", "@every 1h", "tar czf /bk"]
            retries := ⟨-3, by decide, by decide⟩ }).exitCode = 255 ∧
      calls (action sampleStringers rangeAsListed (fun _ => sampleClient) .createJob
          { sampleCtx with
            args := ["backup", "@every 1h", "tar czf /bk"]
            retries := ⟨-3, by decide, by decide⟩ }).trace = []) :=
  ⟨usage_error_exits_255_without_call _ _ _ .createJob _ (Or.inl ⟨rfl, by decide⟩),
    usage_error_exits_255_without_call _ _ _ .describeJob _ (Or.inr (Or.inl ⟨Or.inr rfl, rfl⟩)),
    usage_error_exits_255_without_call _ _ _ .createJob _
      (Or.inr (Or.inr ⟨rfl, by decide, by decide⟩))⟩

/-- C2: for every non-negative `--retries` value and every `create-job`
invocation with at least three positional arguments, exactly one `CreateJob`
call is made, the job passed has `Retries` equal to that value, and its name,
schedule and command are the first, second and third positional arguments. -/
theorem createJob_passes_retries_unchanged (New : String → KalaClient) (ctx : Context)
    (h : 3 ≤ ctx.args.length) (hr : 0 ≤ ctx.retries.val) :
    ∃ job : Job, calls (createJobAction New ctx).trace = [.CreateJob job] ∧
      (job.Retries : Int) = ctx.retries.val ∧
      ctx.args.take 3 = [job.Name, job.Schedule, job.Command] := by
  refine ⟨createJobLiteral ctx, ?_, toUint_of_nonneg ctx.retries hr, take_three_eq ctx.args h⟩
  rw [createJobAction_sent New ctx h hr]
  cases (New ctx.endpoint).CreateJob (createJobLiteral ctx) <;> simp [calls]

/-- C2 at a concrete input: `create-job backup "@every 1h" "tar czf /bk" --retries=3`. -/
theorem createJob_passes_retries_unchanged_witness :
    3 ≤ ["backup", "@every 1h", "tar czf /bk"].length ∧ (0 : Int) ≤ 3 ∧
    ∃ job : Job,
      calls (createJobAction (fun _ => sampleClient)
        { sampleCtx with
          args := ["backup", "@every 1h", "tar czf /bk"]
          retries := ⟨3, by decide, by decide⟩ }).trace = [.CreateJob job] ∧
      (job.Retries : Int) = 3 ∧
      ["backup", "@every 1h", "tar czf /bk"].take 3 = [job.Name, job.Schedule, job.Command] :=
  ⟨by decide, by decide,
    createJob_passes_retries_unchanged (fun _ => sampleClient)
      { sampleCtx with
        args := ["backup", "@every 1h", "tar czf /bk"]
        retries := ⟨3, by decide, by decide⟩ } (by decide) (by decide)⟩

/-- C3, as stated, fails: when the service answers `false` to the deletion of
`job-2`, `delete-job job-2` prints the word `failed`, not `failure` (and exits
with code 2). -/
theorem deleteJob_false_prints_failed :
    sampleClient.DeleteJob "job-2" = .ok false ∧
    stdoutWrites (deleteJobAction (fun _ => sampleClient)
      { sampleCtx with args := ["job-2"] }).trace = ["failed\n"] ∧
    stdoutWrites (deleteJobAction (fun _ => sampleClient)
      { sampleCtx with args := ["job-2"] }).trace ≠ ["failure\n"] ∧
    (deleteJobAction (fun _ => sampleClient) { sampleCtx with args := ["job-2"] }).exitCode = 2 :=
  ⟨rfl, by decide, by decide, by decide⟩

/-- C3, amended: for every `delete-job` invocation with a job id whose
`DeleteJob` call returns without error, the output and the exit code are a
function of the boolean result only: `true` prints the word `success` and exits
0; `false` prints the word `failed` and exits 2. -/
theorem deleteJob_renders_boolean (New : String → KalaClient) (ctx : Context)
    (id : String) (rest : List String) (b : Bool)
    (hargs : ctx.args = id :: rest) (hb : (New ctx.endpoint).DeleteJob id = .ok b) :
    calls (deleteJobAction New ctx).trace = [.DeleteJob id] ∧
    stdoutWrites (deleteJobAction New ctx).trace = [(if b then "success" else "failed") ++ "\n"] ∧
    appWrites (deleteJobAction New ctx).trace = [] ∧
    (deleteJobAction New ctx).exitCode = (if b then 0 else 2) := by
  have h1 : 1 ≤ ctx.args.length := by simp [hargs]
  have hid : Args.Get ctx.args 0 = id := by rw [hargs, Args_Get_zero]
  rw [deleteJobAction_sent New ctx h1, hid, hb]
  cases b <;> simp [calls, stdoutWrites, appWrites, Proc.exitCode]

/-- C3 amended, at concrete inputs: `delete-job job-1` (deleted) and
`delete-job job-2` (not deleted). -/
theorem deleteJob_renders_boolean_witness :
    (stdoutWrites (deleteJobAction (fun _ => sampleClient)
        { sampleCtx with args := ["job-1"] }).trace = ["success\n"] ∧
      (deleteJobAction (fun _ => sampleClient) { sampleCtx with args := ["job-1"] }).exitCode = 0) ∧
    (stdoutWrites (deleteJobAction (fun _ => sampleClient)
        { sampleCtx with args := ["job-2"] }).trace = ["failed\n"] ∧
      (deleteJobAction (fun _ => sampleClient) { sampleCtx with args := ["job-2"] }).exitCode = 2) :=
  ⟨⟨(deleteJob_renders_boolean (fun _ => sampleClient) { sampleCtx with args := ["job-1"] }
        "job-1" [] true rfl rfl).2.1,
      (deleteJob_renders_boolean (fun _ => sampleClient) { sampleCtx with args := ["job-1"] }
        "job-1" [] true rfl rfl).2.2.2⟩,
    ⟨(deleteJob_renders_boolean (fun _ => sampleClient) { sampleCtx with args := ["job-2"] }
        "job-2" [] false rfl rfl).2.1,
      (deleteJob_renders_boolean (fun _ => sampleClient) { sampleCtx with args := ["job-2"] }
        "job-2" [] false rfl rfl).2.2.2⟩⟩

/-- C4, as stated, fails: the jobs come back as a map, and the order of the
lines is the order in which `range` visits it, which the answer does not fix.
The same answer of the service, holding `job-1` and `job-2`, is printed
`job-1`, `job-2` in one run and `job-2`, `job-1` in another. -/
theorem listJobs_order_not_fixed_by_answer :
    stdoutWrites (listJobsAction rangeAsListed (fun _ => sampleClient) sampleCtx).trace
      = ["job-1\n", "job-2\n"] ∧
    stdoutWrites (listJobsAction rangeReversed (fun _ => sampleClient) sampleCtx).trace
      = ["job-2\n", "job-1\n"] ∧
    stdoutWrites (listJobsAction rangeAsListed (fun _ => sampleClient) sampleCtx).trace
      ≠ stdoutWrites (listJobsAction rangeReversed (fun _ => sampleClient) sampleCtx).trace :=
  ⟨by decide, by decide, by decide⟩

/-- C4, amended: for every collection of jobs returned without error by
`GetAllJobs`, `list-jobs` writes exactly one line per entry (the entry's id
followed by a newline), in the order in which the loop visits the entries, and
nothing for an empty collection.  The lines written are those of the entries,
each once, in some order, and their number is the number of entries.  Where no
id contains a newline itself, that is also the number of newline characters in
the text written. -/
theorem listJobs_one_line_per_entry (R : MapRange) (New : String → KalaClient)
    (ctx : Context) (jobs : List (String × Job))
    (h : (New ctx.endpoint).GetAllJobs = .ok jobs) :
    stdoutWrites (listJobsAction R New ctx).trace
      = (R.order jobs).map (fun e => e.2.Id ++ "\n") ∧
    (stdoutWrites (listJobsAction R New ctx).trace).Perm (jobs.map (fun e => e.2.Id ++ "\n")) ∧
    (stdoutWrites (listJobsAction R New ctx).trace).length = jobs.length ∧
    (jobs = [] → stdoutWrites (listJobsAction R New ctx).trace = []) ∧
    ((∀ e ∈ jobs, '\n' ∉ e.2.Id.data) →
      (String.join (stdoutWrites (listJobsAction R New ctx).trace)).data.count '\n'
        = jobs.length) ∧
    appWrites (listJobsAction R New ctx).trace = [] ∧
    calls (listJobsAction R New ctx).trace = [.GetAllJobs] ∧
    (listJobsAction R New ctx).exitCode = 0 := by
  rw [listJobsAction_eq R New ctx, h]
  have hp := R.perm jobs
  have hw : stdoutWrites (Event.remote Call.GetAllJobs ::
      ((R.order jobs).map (fun e => e.2.Id ++ "\n")).map Event.stdout)
        = (R.order jobs).map (fun e => e.2.Id ++ "\n") := by
    simp only [stdoutWrites, stdoutWrites_map_stdout]
  have ha : appWrites (Event.remote Call.GetAllJobs ::
      ((R.order jobs).map (fun e => e.2.Id ++ "\n")).map Event.stdout) = [] := by
    simp only [appWrites, appWrites_map_stdout]
  have hc : calls (Event.remote Call.GetAllJobs ::
      ((R.order jobs).map (fun e => e.2.Id ++ "\n")).map Event.stdout) = [.GetAllJobs] := by
    simp only [calls, calls_map_stdout]
  simp only [hw, ha, hc, List.length_map, Proc.exitCode, true_and, and_true]
  refine ⟨hp.map _, hp.length_eq, fun he => ?_, fun hn => ?_⟩
  · have hnil : R.order jobs = [] := by
      rw [he] at hp ⊢
      exact hp.eq_nil
    simp [hnil]
  · rw [newline_count_lines (R.order jobs) (fun e he => hn e (hp.subset he)), hp.length_eq]

/-- C4 amended, at a concrete input: the service holds `job-1` and `job-2` and
the loop visits them last to first. -/
theorem listJobs_one_line_per_entry_witness :
    sampleClient.GetAllJobs
      = .ok [("job-1", { Job.zero with Id := "job-1" }),
          ("job-2", { Job.zero with Id := "job-2" })] ∧
    (stdoutWrites (listJobsAction rangeReversed (fun _ => sampleClient) sampleCtx).trace).Perm
      ["job-1\n", "job-2\n"] ∧
    (stdoutWrites (listJobsAction rangeReversed (fun _ => sampleClient) sampleCtx).trace).length
      = 2 :=
  ⟨rfl, (listJobs_one_line_per_entry rangeReversed (fun _ => sampleClient) sampleCtx _ rfl).2.1,
    (listJobs_one_line_per_entry rangeReversed (fun _ => sampleClient) sampleCtx _ rfl).2.2.1⟩

/-- C5: for every `describe-job --stats` invocation in which `GetJob` and
`GetJobStats` both succeed and the statistics have length `n`, the output is the
job description followed by exactly `n` blocks; the block at position `i` is the
separator line `---`, then the position `i`, then that entry's run timestamp,
retry count, outcome and duration.  For `n = 0` the output is the description
alone. -/
theorem describeJob_stats_blocks (S : Stringers) (New : String → KalaClient) (ctx : Context)
    (id : String) (rest : List String) (j : Job) (sts : List JobStat)
    (hargs : ctx.args = id :: rest) (hstats : ctx.stats = true)
    (hj : (New ctx.endpoint).GetJob id = .ok j)
    (hs : (New ctx.endpoint).GetJobStats id = .ok sts) :
    ∃ blocks : List (List String),
      stdoutWrites (describeJobAction S New ctx).trace = jobLines S j ++ blocks.flatten ∧
      blocks.length = sts.length ∧
      (∀ (i : Nat) (st : JobStat), sts[i]? = some st →
        blocks[i]? = some
          [ "---\n",
            "Repetition: " ++ toString i ++ "\n",
            "Last run at: " ++ S.time st.RanAt ++ "\n",
            "Number of retries: " ++ toString st.NumberOfRetries ++ "\n",
            "Status: " ++ (if st.Success then "success" else "failed") ++ "\n",
            "Execution duration: " ++ S.duration st.ExecutionDuration ++ "\n" ]) ∧
      (sts = [] → stdoutWrites (describeJobAction S New ctx).trace = jobLines S j) ∧
      appWrites (describeJobAction S New ctx).trace = [] ∧
      (describeJobAction S New ctx).exitCode = 0 := by
  have h1 : 1 ≤ ctx.args.length := by simp [hargs]
  have hid : Args.Get ctx.args 0 = id := by rw [hargs, Args_Get_zero]
  have hrun := describeJobAction_sent S New ctx h1
  rw [hid, hj] at hrun
  simp only [hstats, if_true, hs] at hrun
  have hw : stdoutWrites (describeJobAction S New ctx).trace
      = jobLines S j ++ (statBlocksFrom S 0 sts).flatten := by
    rw [hrun, stdoutWrites_append, stdoutWrites_map_stdout]
    rfl
  refine ⟨statBlocksFrom S 0 sts, hw, statBlocksFrom_length S 0 sts, ?_, ?_, ?_, ?_⟩
  · intro i st hi
    have hb := statBlocksFrom_getElem? S 0 i sts st hi
    simpa [statBlock] using hb
  · intro he
    rw [hw, he]
    simp [statBlocksFrom]
  · rw [hrun, appWrites_append, appWrites_map_stdout]
    rfl
  · rw [hrun]
    rfl

/-- C5 at a concrete input: `describe-job --stats job-1`, two runs on record. -/
theorem describeJob_stats_blocks_witness :
    sampleClient.GetJob "job-1" = .ok { Job.zero with Id := "job-1" } ∧
    sampleClient.GetJobStats "job-1" = .ok [⟨⟨1⟩, 2, true, ⟨5⟩⟩, ⟨⟨2⟩, 0, false, ⟨7⟩⟩] ∧
    ∃ blocks : List (List String),
      stdoutWrites (describeJobAction sampleStringers (fun _ => sampleClient)
          { sampleCtx with args := ["job-1"], stats := true }).trace
        = jobLines sampleStringers { Job.zero with Id := "job-1" } ++ blocks.flatten ∧
      blocks.length = 2 :=
  ⟨rfl, rfl,
    (describeJob_stats_blocks sampleStringers (fun _ => sampleClient)
      { sampleCtx with args := ["job-1"], stats := true } "job-1" [] _ _ rfl rfl rfl rfl).imp
      (fun _ hb => ⟨hb.1, hb.2.1⟩)⟩

/-- C6: for every `describe-job --stats` invocation in which `GetJob` succeeds
and `GetJobStats` fails, the command reports the statistics failure (one line:
the program's qualified name, `: `, the error), exits with code 1 and prints
none of the description of the job it has fetched. -/
theorem describeJob_stats_failure_reported (S : Stringers) (New : String → KalaClient)
    (ctx : Context) (id : String) (rest : List String) (j : Job) (err : GoError)
    (hargs : ctx.args = id :: rest) (hstats : ctx.stats = true)
    (hj : (New ctx.endpoint).GetJob id = .ok j)
    (hs : (New ctx.endpoint).GetJobStats id = .error err) :
    appWrites (describeJobAction S New ctx).trace = [ctx.helpName ++ ": " ++ err.text ++ "\n"] ∧
    stdoutWrites (describeJobAction S New ctx).trace = [] ∧
    (describeJobAction S New ctx).exitCode = 1 ∧
    calls (describeJobAction S New ctx).trace = [.GetJob id, .GetJobStats id] := by
  have h1 : 1 ≤ ctx.args.length := by simp [hargs]
  have hid : Args.Get ctx.args 0 = id := by rw [hargs, Args_Get_zero]
  have hrun := describeJobAction_sent S New ctx h1
  rw [hid, hj] at hrun
  simp only [hstats, if_true, hs] at hrun
  rw [hrun]
  exact ⟨rfl, rfl, rfl, rfl⟩

/-- C6 at a concrete input: `describe-job --stats job-2`, whose statistics the
service does not find. -/
theorem describeJob_stats_failure_reported_witness :
    sampleClient.GetJob "job-2" = .ok { Job.zero with Id := "job-2" } ∧
    sampleClient.GetJobStats "job-2" = .error ⟨"NotFound"⟩ ∧
    appWrites (describeJobAction sampleStringers (fun _ => sampleClient)
      { sampleCtx with args := ["job-2"], stats := true }).trace = ["kala-cli: NotFound\n"] ∧
    stdoutWrites (describeJobAction sampleStringers (fun _ => sampleClient)
      { sampleCtx with args := ["job-2"], stats := true }).trace = [] ∧
    (describeJobAction sampleStringers (fun _ => sampleClient)
      { sampleCtx with args := ["job-2"], stats := true }).exitCode = 1 ∧
    calls (describeJobAction sampleStringers (fun _ => sampleClient)
      { sampleCtx with args := ["job-2"], stats := true }).trace
        = [.GetJob "job-2", .GetJobStats "job-2"] :=
  ⟨rfl, rfl,
    describeJob_stats_failure_reported sampleStringers (fun _ => sampleClient)
      { sampleCtx with args := ["job-2"], stats := true } "job-2" [] _ ⟨"NotFound"⟩
      rfl rfl rfl rfl⟩

/-- C7: for every `describe-job` invocation with a job id, with or without
`--stats`, whose `GetJob` call fails, the command prints exactly one error line
made of the qualified name and the error, prints no job description, exits with
code 1 and makes no `GetJobStats` call. -/
theorem describeJob_getJob_failure (S : Stringers) (New : String → KalaClient)
    (ctx : Context) (id : String) (rest : List String) (err : GoError)
    (hargs : ctx.args = id :: rest)
    (hj : (New ctx.endpoint).GetJob id = .error err) :
    appWrites (describeJobAction S New ctx).trace = [ctx.helpName ++ ": " ++ err.text ++ "\n"] ∧
    stdoutWrites (describeJobAction S New ctx).trace = [] ∧
    (describeJobAction S New ctx).exitCode = 1 ∧
    calls (describeJobAction S New ctx).trace = [.GetJob id] ∧
    ∀ x : String, Call.GetJobStats x ∉ calls (describeJobAction S New ctx).trace := by
  have h1 : 1 ≤ ctx.args.length := by simp [hargs]
  have hid : Args.Get ctx.args 0 = id := by rw [hargs, Args_Get_zero]
  have hrun := describeJobAction_sent S New ctx h1
  rw [hid, hj] at hrun
  rw [hrun]
  refine ⟨rfl, rfl, rfl, rfl, ?_⟩
  intro x hx
  simp [calls] at hx

/-- C7 at a concrete input: `describe-job --stats missing-id`. -/
theorem describeJob_getJob_failure_witness :
    sampleClient.GetJob "missing-id" = .error ⟨"NotFound"⟩ ∧
    appWrites (describeJobAction sampleStringers (fun _ => sampleClient)
      { sampleCtx with args := ["missing-id"], stats := true }).trace = ["kala-cli: NotFound\n"] ∧
    calls (describeJobAction sampleStringers (fun _ => sampleClient)
      { sampleCtx with args := ["missing-id"], stats := true }).trace
        = [.GetJob "missing-id"] :=
  ⟨rfl,
    (describeJob_getJob_failure sampleStringers (fun _ => sampleClient)
      { sampleCtx with args := ["missing-id"], stats := true } "missing-id" [] ⟨"NotFound"⟩
      rfl rfl).1,
    (describeJob_getJob_failure sampleStringers (fun _ => sampleClient)
      { sampleCtx with args := ["missing-id"], stats := true } "missing-id" [] ⟨"NotFound"⟩
      rfl rfl).2.2.2.1⟩

/-- C8, as stated, fails: `create-job` with four positional arguments is not a
usage error.  It calls `CreateJob` and, the service accepting, exits with code 0. -/
theorem createJob_four_arguments_accepted :
    ["backup", "@every 1h", "tar czf /bk", "extra"].length ≠ 3 ∧
    (createJobAction (fun _ => sampleClient)
      { sampleCtx with args := ["backup", "@every 1h", "tar czf /bk", "extra"] }).exitCode = 0 ∧
    calls (createJobAction (fun _ => sampleClient)
      { sampleCtx with args := ["backup", "@every 1h", "tar czf /bk", "extra"] }).trace
      = [.CreateJob { Job.zero with
          Owner := "operator", Name := "backup", Schedule := "@every 1h",
          Command := "tar czf /bk" }] :=
  ⟨by decide, by decide, by decide⟩

/-- C8, amended: `create-job` requires at least three positional arguments and
`delete-job` and `describe-job` at least one.  With fewer the command is a usage
error: it exits 255 and makes no remote call.  With the required number or more
(and, for `create-job`, a non-negative `--retries`) the command is not a usage
error: it makes its remote call, does not exit 255, and behaves exactly as if
only the first three (respectively the first one) had been given. -/
theorem positional_arguments_at_least (S : Stringers) (New : String → KalaClient)
    (ctx : Context) :
    (ctx.args.length < 3 →
      (createJobAction New ctx).exitCode = 255 ∧ calls (createJobAction New ctx).trace = []) ∧
    (ctx.args.length < 1 →
      ((deleteJobAction New ctx).exitCode = 255 ∧ calls (deleteJobAction New ctx).trace = []) ∧
      ((describeJobAction S New ctx).exitCode = 255 ∧
        calls (describeJobAction S New ctx).trace = [])) ∧
    (∀ a b c extra, ctx.args = a :: b :: c :: extra →
      createJobAction New ctx = createJobAction New { ctx with args := [a, b, c] } ∧
      (0 ≤ ctx.retries.val →
        (createJobAction New ctx).exitCode ≠ 255 ∧
        ∃ job, calls (createJobAction New ctx).trace = [.CreateJob job])) ∧
    (∀ id extra, ctx.args = id :: extra →
      (deleteJobAction New ctx = deleteJobAction New { ctx with args := [id] } ∧
        (deleteJobAction New ctx).exitCode ≠ 255 ∧
        ∃ more, calls (deleteJobAction New ctx).trace = .DeleteJob id :: more) ∧
      (describeJobAction S New ctx = describeJobAction S New { ctx with args := [id] } ∧
        (describeJobAction S New ctx).exitCode ≠ 255 ∧
        ∃ more, calls (describeJobAction S New ctx).trace = .GetJob id :: more)) := by
  refine ⟨?_, ?_, ?_, ?_⟩
  · intro h
    rw [createJobAction_short New ctx h]
    exact ⟨rfl, rfl⟩
  · intro h
    rw [deleteJobAction_short New ctx h, describeJobAction_short S New ctx h]
    exact ⟨⟨rfl, rfl⟩, rfl, rfl⟩
  · intro a b c extra hargs
    have h3 : 3 ≤ ctx.args.length := by simp [hargs]
    refine ⟨createJobAction_extra_ignored New ctx a b c extra hargs, fun hr => ?_⟩
    exact ⟨(calls_createJobAction New ctx h3 hr).1, _, (calls_createJobAction New ctx h3 hr).2⟩
  · intro id extra hargs
    have h1 : 1 ≤ ctx.args.length := by simp [hargs]
    have hid : Args.Get ctx.args 0 = id := by rw [hargs, Args_Get_zero]
    have hd := calls_deleteJobAction New ctx h1
    have hg := calls_describeJobAction S New ctx h1
    rw [hid] at hd hg
    exact ⟨⟨deleteJobAction_extra_ignored New ctx id extra hargs, hd⟩,
      describeJobAction_extra_ignored S New ctx id extra hargs, hg⟩

/-- C8 amended, at concrete inputs: `delete-job` with no argument, and
`delete-job job-1 extra`. -/
theorem positional_arguments_at_least_witness :
    ((deleteJobAction (fun _ => sampleClient) sampleCtx).exitCode = 255 ∧
      calls (deleteJobAction (fun _ => sampleClient) sampleCtx).trace = []) ∧
    (deleteJobAction (fun _ => sampleClient) { sampleCtx with args := ["job-1", "extra"] }).exitCode
      ≠ 255 :=
  ⟨((positional_arguments_at_least sampleStringers (fun _ => sampleClient) sampleCtx).2.1
      (by decide)).1,
    ((positional_arguments_at_least sampleStringers (fun _ => sampleClient)
      { sampleCtx with args := ["job-1", "extra"] }).2.2.2 "job-1" ["extra"] rfl).1.2.1⟩

/-- C9, as stated, fails: `describe-job` without `--stats` and without a job id
makes no remote call at all (not one) and prints no job description; and
`describe-job missing-id`, again without `--stats`, makes its one call and, that
call failing, prints no job description either. -/
theorem describeJob_without_id_makes_no_call :
    sampleCtx.stats = false ∧
    (calls (describeJobAction sampleStringers (fun _ => sampleClient) sampleCtx).trace = [] ∧
      stdoutWrites (describeJobAction sampleStringers (fun _ => sampleClient) sampleCtx).trace
        = [] ∧
      (describeJobAction sampleStringers (fun _ => sampleClient) sampleCtx).exitCode = 255) ∧
    (calls (describeJobAction sampleStringers (fun _ => sampleClient)
        { sampleCtx with args := ["missing-id"] }).trace = [.GetJob "missing-id"] ∧
      stdoutWrites (describeJobAction sampleStringers (fun _ => sampleClient)
        { sampleCtx with args := ["missing-id"] }).trace = [] ∧
      (describeJobAction sampleStringers (fun _ => sampleClient)
        { sampleCtx with args := ["missing-id"] }).exitCode = 1) :=
  ⟨rfl, ⟨by decide, by decide, by decide⟩, by decide, by decide, by decide⟩

/-- C9, amended: for every `describe-job` invocation, `GetJobStats` is called if
and only if a job id is given, `--stats` is present and `GetJob` succeeded, and
then it is called exactly once, after `GetJob` and with the same job id.
Without `--stats` and with a job id given, the command makes exactly one remote
call (`GetJob`) and, when that call succeeds, prints the job description with no
separator or statistics block. -/
theorem describeJob_stats_call_iff (S : Stringers) (New : String → KalaClient)
    (ctx : Context) :
    ((∃ x : String, Call.GetJobStats x ∈ calls (describeJobAction S New ctx).trace) ↔
      ∃ id rest j, ctx.args = id :: rest ∧ ctx.stats = true ∧
        (New ctx.endpoint).GetJob id = .ok j) ∧
    (∀ id rest j, ctx.args = id :: rest → ctx.stats = true →
      (New ctx.endpoint).GetJob id = .ok j →
      calls (describeJobAction S New ctx).trace = [.GetJob id, .GetJobStats id]) ∧
    (∀ id rest, ctx.args = id :: rest → ctx.stats = false →
      calls (describeJobAction S New ctx).trace = [.GetJob id] ∧
      ∀ j, (New ctx.endpoint).GetJob id = .ok j →
        stdoutWrites (describeJobAction S New ctx).trace = jobLines S j ∧
        "---\n" ∉ stdoutWrites (describeJobAction S New ctx).trace) := by
  refine ⟨?_, ?_, ?_⟩
  · cases hargs : ctx.args with
    | nil =>
      have hlt : ctx.args.length < 1 := by simp [hargs]
      rw [describeJobAction_short S New ctx hlt]
      simp [calls]
    | cons id rest =>
      rw [calls_describeJobAction_cons S New ctx id rest hargs]
      cases hj : (New ctx.endpoint).GetJob id with
      | error err => simp [hj]
      | ok j => cases hst : ctx.stats <;> simp [hj]
  · intro id rest j hargs hstats hj
    rw [calls_describeJobAction_cons S New ctx id rest hargs, hj]
    simp [hstats]
  · intro id rest hargs hstats
    constructor
    · rw [calls_describeJobAction_cons S New ctx id rest hargs]
      cases hj : (New ctx.endpoint).GetJob id <;> simp [hstats]
    · intro j hj
      rw [describeJobAction_nostats S New ctx id rest j hargs hstats hj]
      exact ⟨rfl, separator_not_mem_jobLines S j⟩

/-- C9 amended, at concrete inputs: `describe-job --stats job-1` and
`describe-job job-1`. -/
theorem describeJob_stats_call_iff_witness :
    calls (describeJobAction sampleStringers (fun _ => sampleClient)
      { sampleCtx with args := ["job-1"], stats := true }).trace
      = [.GetJob "job-1", .GetJobStats "job-1"] ∧
    calls (describeJobAction sampleStringers (fun _ => sampleClient)
      { sampleCtx with args := ["job-1"] }).trace = [.GetJob "job-1"] :=
  ⟨(describeJob_stats_call_iff sampleStringers (fun _ => sampleClient)
      { sampleCtx with args := ["job-1"], stats := true }).2.1 "job-1" [] _ rfl rfl rfl,
    ((describeJob_stats_call_iff sampleStringers (fun _ => sampleClient)
      { sampleCtx with args := ["job-1"] }).2.2 "job-1" [] rfl rfl).1⟩

/-- C10: for every `create-job` invocation that reaches the remote call, the
`Job` sent to `CreateJob` has only owner, retries, name, schedule and command
set, the owner being the value of `--owner`; every other field, `Epsilon` among
them, has its zero value whatever `--epsilon` was given, so that invocations
differing only in `--epsilon` send the same `Job`. -/
theorem createJob_ignores_epsilon (New : String → KalaClient) (ctx : Context)
    (h : 3 ≤ ctx.args.length) (hr : 0 ≤ ctx.retries.val) :
    ∃ job : Job, calls (createJobAction New ctx).trace = [.CreateJob job] ∧
      job.Owner = ctx.owner ∧
      job.Epsilon = "" ∧ job.Id = "" ∧ job.Disabled = false ∧
      job.ParentJobs = [] ∧ job.DependentJobs = [] ∧ job.Metadata = Job.zero.Metadata ∧
      { job with Owner := "", Retries := 0, Name := "", Schedule := "", Command := "" }
        = Job.zero ∧
      ∀ e : String,
        calls (createJobAction New { ctx with epsilon := e }).trace = [.CreateJob job] := by
  refine ⟨createJobLiteral ctx, (calls_createJobAction New ctx h hr).2, rfl, rfl, rfl, rfl, rfl,
    rfl, rfl, rfl, fun e => ?_⟩
  exact (calls_createJobAction New { ctx with epsilon := e } h hr).2

/-- C10 at a concrete input: `create-job backup "@every 1h" "tar czf /bk"`, once
without `--epsilon` and once with `--epsilon=PT5M`. -/
theorem createJob_ignores_epsilon_witness :
    3 ≤ ["backup", "@every 1h", "tar czf /bk"].length ∧
    ∃ job : Job,
      calls (createJobAction (fun _ => sampleClient)
        { sampleCtx with args := ["backup", "@every 1h", "tar czf /bk"] }).trace
          = [.CreateJob job] ∧
      job.Epsilon = "" ∧
      calls (createJobAction (fun _ => sampleClient)
        { sampleCtx with
          args := ["backup", "@every 1h", "tar czf /bk"], epsilon := "PT5M" }).trace
          = [.CreateJob job] :=
  ⟨by decide,
    (createJob_ignores_epsilon (fun _ => sampleClient)
      { sampleCtx with args := ["backup", "@every 1h", "tar czf /bk"] }
      (by decide) (by decide)).imp
      (fun _ hjob => ⟨hjob.1, hjob.2.2.1, hjob.2.2.2.2.2.2.2.2.2 "PT5M"⟩)⟩

end KalaCli
